import Mathlib

/-!
Verification of the FuseWire client runtime (reactor.js, instance.js,
template.js, server.js, config.js) against its natural-language
specification.  All definitions below are shallow embeddings translated
from the JavaScript source; each definition's doc comment names the source
function and lines it embeds.
-/

namespace FuseWire

/-! ## JSON-representable values (the wire/storage data model) -/

/-- A JSON-representable JavaScript value, as produced by `JSON.parse` /
consumed by `JSON.stringify` (`config.getJsonParser()`).  Arrays are not
needed by any claim and are omitted. -/
inductive JVal where
  | null : JVal
  | bool (b : Bool) : JVal
  | num (n : Int) : JVal
  | str (s : String) : JVal
  | obj (fields : List (String × JVal)) : JVal

/-- Escape backslash and double quote, as `JSON.stringify` does for the
characters that can occur in the identifiers and values used here. -/
def escapeStr (s : String) : String :=
  String.mk (s.data.foldr (fun c acc =>
    if c = '\\' then '\\' :: '\\' :: acc
    else if c = '"' then '\\' :: '"' :: acc
    else c :: acc) [])

/-- Render a string as a JSON string literal. -/
def quoteStr (s : String) : String := "\"" ++ escapeStr s ++ "\""

mutual
/-- `JSON.stringify` on a `JVal` (insertion-ordered fields, standard
punctuation). -/
def stringifyJ : JVal → String
  | .null => "null"
  | .bool true => "true"
  | .bool false => "false"
  | .num n => toString n
  | .str s => quoteStr s
  | .obj fs => "\x7b" ++ stringifyJFields fs ++ "\x7d"

/-- `JSON.stringify` of an object's field list, comma separated. -/
def stringifyJFields : List (String × JVal) → String
  | [] => ""
  | (k, v) :: [] => quoteStr k ++ ":" ++ stringifyJ v
  | (k, v) :: rest => quoteStr k ++ ":" ++ stringifyJ v ++ "," ++ stringifyJFields rest
end

/-! ## Reactor modes (reactor.js lines 23-49) and mode resolution -/

/-- The five reactor modes, `ReactorModes` in reactor.js. -/
inductive Mode where
  | CSR | CSR_ONLY | SERVER | SERVER_WAIT | SSR
deriving DecidableEq, Repr

/-- The names of the `ReactorModes` table keys (reactor.js lines 23-49). -/
def reactorModeNames : List String := ["CSR", "CSR_ONLY", "SERVER", "SERVER_WAIT", "SSR"]

/-- Error taxonomy relevant to the claims (`FuseWireError('Invalid
ReactorMode')` and `FuseWireComponentNotFound`, error.js). -/
inductive FWErr where
  | invalidMode
  | componentNotFound
deriving DecidableEq, Repr

/-- The resolution of the mode argument (reactor.js line 16): a falsy
(absent or empty) user mode falls back to
`config.getDefaultReactorMode()`. -/
def resolveModeStr (userMode : Option String) (defaultMode : String) : String :=
  match userMode with
  | some u => if u = "" then defaultMode else u
  | none => defaultMode

/-- The own property names of `Object.prototype` (ECMA-262 §20.2.3
together with the Annex B legacy accessor methods and the `__proto__`
accessor): a JavaScript property read `ReactorModes[mode]` on the
`ReactorModes` object literal consults the prototype chain, so for these
names it yields the inherited member — not `undefined`. -/
def objectProtoKeys : List String :=
  ["constructor", "hasOwnProperty", "isPrototypeOf", "propertyIsEnumerable",
   "toLocaleString", "toString", "valueOf", "__proto__",
   "__defineGetter__", "__defineSetter__", "__lookupGetter__", "__lookupSetter__"]

/-- The negation of the test `typeof(ReactorModes[mode]) === 'undefined'`
(reactor.js line 17): the property read yields a defined value for the
five mode names AND for every property name `ReactorModes` inherits from
`Object.prototype`. -/
def reactorModesHasProp (m : String) : Bool :=
  reactorModeNames.contains m || objectProtoKeys.contains m

/-- `getReactorMode` (reactor.js lines 15-21): resolve the mode string,
then raise `Invalid ReactorMode` only when the property read
`ReactorModes[mode]` yields `undefined` — an unrecognized mode string
that names an `Object.prototype` member is accepted. -/
def getReactorModeStr (userMode : Option String) (defaultMode : String) : Except FWErr String :=
  let m := resolveModeStr userMode defaultMode
  if reactorModesHasProp m then .ok m else .error .invalidMode

/-- Whether `_run` performs the remote component exchange for a mode
string (reactor.js line 175 compares the mode against the string
constants `ReactorModes.CSR` and `ReactorModes.CSR_ONLY`). -/
def runFetchesStr (mode : String) : Bool :=
  mode != "CSR" && mode != "CSR_ONLY"

/-! ## The in-flight serial-number machinery (reactor.js `react`, lines 115-152) -/

/-- The serial-number downgrade of `react` (reactor.js lines 136-140): a
call whose captured serial number exceeds 1 and whose resolved mode is not
CSR is collapsed to CSR for this execution. -/
def downgrade (serial : Nat) (mode : Mode) : Mode :=
  if serial > 1 ∧ mode ≠ Mode.CSR then Mode.CSR else mode

/-- Whether `_run` performs the remote component exchange for a mode
(reactor.js line 175: `mode !== CSR && mode !== CSR_ONLY`). -/
def runFetches (mode : Mode) : Bool :=
  mode ≠ Mode.CSR && mode ≠ Mode.CSR_ONLY

/-- The completion bookkeeping of `react` (reactor.js lines 142-151): the
respawn flag is `reactorMode !== CSR && inFlight[componentId] > 1` (an
absent counter compares as not `> 1`); only the serial-number-1 call
deletes the counter and acts on the flag.  Returns the new counter value
and whether a respawn `react` call is issued. -/
def reactFinish (effMode : Mode) (counter : Option Nat) (serial : Nat) :
    Option Nat × Bool :=
  let respawn := effMode ≠ Mode.CSR ∧ counter.getD 0 > 1
  if serial = 1 then (none, decide respawn) else (counter, false)

/-! ## Component identity (config.js `getComponentId`, part_001 lines 113-115) -/

/-- `config.getComponentId(componentName, componentId)`: the name, plus
`_id` when the id is truthy (the empty string models an absent id). -/
def getComponentId (componentName componentId : String) : String :=
  componentName ++ (if componentId ≠ "" then "_" ++ componentId else "")

/-! ## Variable envelopes and instance variables (instance.js) -/

/-- A wire/storage variable envelope: either a plain JSON value or the
tagged component reference `{'fusewire-type': 'component', mode, component,
id, vars}` produced by `InstanceDao.encodeVars` (instance.js lines 287-305)
and consumed by `convertToComponentIfNeeded` (lines 51-63).  `mode` is
`none` when the JavaScript field is `undefined` (as happens in the
recursive `encodeVars` call, which passes no mode); `version` is carried by
server response envelopes and is absent from encoded ones. -/
inductive EncVal where
  | prim (j : JVal)
  | compRef (mode : Option String) (component : String) (id : String)
      (vars : List (String × EncVal)) (version : Option String)

/-- A value held in an instance's server-owned variable: a plain value, or
a reference to another live component instance (a `Component` object whose
`fuseWireComponentId` is recorded). -/
inductive VarVal where
  | prim (j : JVal)
  | comp (componentId : String)

/-- One record of `InstanceDao.instances` (instance.js lines 180-188).
`fields` holds the instance object's server-owned variable slots
(`instance[key]`); `version` is `none` when the stored version is
JavaScript `undefined`. -/
structure InstRec where
  component : String
  id : String
  serverVarKeys : List String
  runesKeys : List String
  version : Option String
  fields : List (String × VarVal)

/-- The instance registry `this.instances`, as an association list whose
first binding for a key is the JavaScript object's property value. -/
abbrev Registry := List (String × InstRec)

/-- JavaScript object property assignment `this.instances[cid] = r`:
the new binding shadows (and here replaces) any previous one. -/
def rinsert (reg : Registry) (cid : String) (r : InstRec) : Registry :=
  (cid, r) :: reg.filter (fun p => p.1 != cid)

/-- JavaScript `delete this.instances[cid]`. -/
def rdelete (reg : Registry) (cid : String) : Registry :=
  reg.filter (fun p => p.1 != cid)

/-- `InstanceDao.extractVars` (instance.js lines 278-285): the map of each
server-owned key to the instance object's current slot value.  The
JavaScript code throws for an untracked componentId; callers below only
invoke it after a successful lookup, so the untracked case returns `[]`.
A slot missing from the instance object (JavaScript `undefined`) is
modelled as `null`; well-formed records populate every key. -/
def extractVars (reg : Registry) (cid : String) : List (String × VarVal) :=
  match reg.lookup cid with
  | some r => r.serverVarKeys.map (fun k => (k, (r.fields.lookup k).getD (.prim .null)))
  | none => []

/-- The `for (const key in vars)` loop of `InstanceDao.encodeVars`
(instance.js lines 289-303), parameterized by the encoder applied to each
value. -/
def encList (enc : VarVal → Option EncVal) :
    List (String × VarVal) → Option (List (String × EncVal))
  | [] => some []
  | (k, v) :: rest =>
    match enc v with
    | none => none
    | some e =>
      match encList enc rest with
      | none => none
      | some tail => some ((k, e) :: tail)

/-- The encoding of one variable value by `InstanceDao.encodeVars`
(instance.js lines 290-302): a plain value passes through; a
`Component`-valued variable becomes a tagged envelope built from the
registry's name/id for its componentId, with `vars` encoded by the
recursive call `this.encodeVars(this.extractVars(componentId))` — which
passes NO second argument, so the nested envelopes' mode is `undefined`
(`none`).  `fuel` bounds the recursion through registry references (the
JavaScript original diverges on cyclic references); `none` models fuel
exhaustion or the `getComponentNameAndId` throw. -/
def encodeVal : Nat → Registry → Option String → VarVal → Option EncVal
  | _, _, _, .prim j => some (.prim j)
  | 0, _, _, .comp _ => none
  | f + 1, reg, mode, .comp cid =>
    match reg.lookup cid with
    | none => none
    | some r =>
      match encList (fun v => encodeVal f reg none v) (extractVars reg cid) with
      | none => none
      | some inner => some (.compRef mode r.component r.id inner none)

/-- `InstanceDao.encodeVars(vars, mode)` (instance.js lines 287-305):
encode every entry of a variable map with the given mode. -/
def encodeVars (fuel : Nat) (reg : Registry) (vars : List (String × VarVal))
    (mode : Option String) : Option (List (String × EncVal)) :=
  encList (fun v => encodeVal fuel reg mode v) vars

mutual
/-- `JSON.stringify` of an encoded variable value.  A component envelope
serializes with its literal key order `'fusewire-type', mode, component,
id, vars` (instance.js lines 293-299); a `mode` or `version` that is
JavaScript `undefined` is omitted, exactly as `JSON.stringify` drops
`undefined`-valued properties. -/
def stringifyEnc : EncVal → String
  | .prim j => stringifyJ j
  | .compRef m c i vs ver =>
    "\x7b\"fusewire-type\":\"component\"" ++
    (match m with | some ms => ",\"mode\":" ++ quoteStr ms | none => "") ++
    ",\"component\":" ++ quoteStr c ++
    ",\"id\":" ++ quoteStr i ++
    ",\"vars\":\x7b" ++ stringifyEncFields vs ++ "\x7d" ++
    (match ver with | some vs' => ",\"version\":" ++ quoteStr vs' | none => "") ++
    "\x7d"

/-- Field list of an encoded-variable object under `JSON.stringify`. -/
def stringifyEncFields : List (String × EncVal) → String
  | [] => ""
  | (k, v) :: [] => quoteStr k ++ ":" ++ stringifyEnc v
  | (k, v) :: rest => quoteStr k ++ ":" ++ stringifyEnc v ++ "," ++ stringifyEncFields rest
end

/-- The per-key comparison of `calculateChangedVars` (instance.js lines
116-129): `boolean`/`number`/`string` values (JavaScript's `typeof`
switch; `bigint` needs no separate case here) compare with `!==`, and
every other value — `null`, objects, component envelopes — compares by
`JSON.stringify` equality. -/
def varChanged (ov nv : EncVal) : Bool :=
  match nv with
  | .prim (.bool b) => !(match ov with | .prim (.bool b') => b == b' | _ => false)
  | .prim (.num n) => !(match ov with | .prim (.num n') => n == n' | _ => false)
  | .prim (.str s) => !(match ov with | .prim (.str s') => s == s' | _ => false)
  | _ => !(stringifyEnc nv == stringifyEnc ov)

/-- `calculateChangedVars(jsonParser, oldVars, newVars)` (instance.js lines
109-133): iterate `Object.keys(newVars)` in order; a key absent from
`oldVars` (`typeof === 'undefined'`) is changed, otherwise the per-type
comparison decides. -/
def calculateChangedVars (old new_ : List (String × EncVal)) : List String :=
  new_.filterMap (fun p =>
    match old.lookup p.1 with
    | none => some p.1
    | some ov => if varChanged ov p.2 then some p.1 else none)

/-! ## Rune detection (instance.js `create`, lines 166-172) -/

/-- JavaScript `\w` word characters. -/
def isWordChar (c : Char) : Bool := c.isAlphanum || c == '_'

/-- Match the tail of the rune regex: the key's characters followed by a
`\b` word boundary (next character is not a word character, or the end). -/
def checkKey : List Char → List Char → Bool
  | [], rest => match rest with | [] => true | c :: _ => !(isWordChar c)
  | k :: ks, c :: rest => k == c && checkKey ks rest
  | _ :: _, [] => false

/-- Match the rune pattern `\(\(\{\s*\$key\b` at a position: the escaped
open tag `((` (the default `config.getTags()[0]`) and `{`, optional
whitespace, `$`, then the key with a word boundary. -/
def matchesAt (key : List Char) (l : List Char) : Bool :=
  match l with
  | '(' :: '(' :: '\x7b' :: rest =>
    match rest.dropWhile (fun c => c.isWhitespace) with
    | '$' :: rest2 => checkKey key rest2
    | _ => false
  | _ => false

/-- Scan the whole character list for a rune-pattern match. -/
def runeScanAux (key : List Char) : List Char → Bool
  | [] => false
  | c :: rest => matchesAt key (c :: rest) || runeScanAux key rest

/-- The test `template.getHtmlCode().match(new RegExp(regex, 'gm'))` of
instance.js lines 167-171, with the default tags `['((', '))']`. -/
def runeMatch (html key : String) : Bool := runeScanAux key.data html.data

/-! ## Templates (template.js) -/

/-- A component template (template.js `Template`, lines 13-74).  A version
that was JavaScript `undefined` is conflated with `''`: every use of a
stored template's version first checks truthiness, so the two are
indistinguishable in the modelled code paths. -/
structure Template where
  component : String
  jsCode : String
  cssCode : String
  htmlCode : String
  version : String
deriving DecidableEq, Repr

/-! ## Instance creation / update / decode (instance.js lines 51-63, 157-214) -/

/-- The per-key decoding loop shared by `create` (instance.js lines
174-179) and `update` (lines 205-212): decode each value in order with the
supplied decoder `conv` (instantiated with `convertToComponentIfNeeded`),
threading the registry through nested creations. -/
def convList (conv : Registry → EncVal → Option (Registry × VarVal)) :
    Registry → List (String × EncVal) → Option (Registry × List (String × VarVal))
  | reg, [] => some (reg, [])
  | reg, (k, v) :: rest =>
    match conv reg v with
    | none => none
    | some (reg', vv) =>
      match convList conv reg' rest with
      | none => none
      | some (reg'', fields) => some (reg'', (k, vv) :: fields)

/-- `InstanceDao.create(template, vars, id, version)` (instance.js lines
157-191), parameterized by the decoder used for each variable: the
componentId derives from the template's component name and the id;
`serverVarKeys` are the supplied variable names; `runesKeys` are the keys
whose rune pattern occurs in the template markup; each variable is decoded
(creating nested instances first), then the record is stored.  The dynamic
class loading and the `hydrate()` hook mutate no registry state and are
not modelled.  Returns the new registry and the created componentId. -/
def createWith (conv : Registry → EncVal → Option (Registry × VarVal))
    (reg : Registry) (tmpl : Template) (vars : List (String × EncVal))
    (id : String) (ver : Option String) : Option (Registry × String) :=
  let cid := getComponentId tmpl.component id
  let serverVarKeys := vars.map Prod.fst
  let runesKeys := serverVarKeys.filter (fun k => runeMatch tmpl.htmlCode k)
  match convList conv reg vars with
  | none => none
  | some (reg', fields) =>
    some (rinsert reg' cid ⟨tmpl.component, id, serverVarKeys, runesKeys, ver, fields⟩, cid)

/-- `InstanceDao.update(componentId, newVars, newVersion)` (instance.js
lines 200-214), parameterized by the decoder used for each variable: for
an existing record, store the new version, capture the old slot value of
every server-owned key (a missing slot is JavaScript `undefined`, modelled
`none`), fill keys absent from `newVars` with `null`, decode and assign
each new value, and pass the captured map to the instance's synchronous
`update` hook.  Returns the new registry and the `oldVars` map given to
the hook. -/
def updateWith (conv : Registry → EncVal → Option (Registry × VarVal))
    (reg : Registry) (cid : String) (newVars : List (String × EncVal))
    (newVersion : Option String) :
    Option (Registry × List (String × Option VarVal)) :=
  match reg.lookup cid with
  | none => none
  | some r =>
    let oldVars := r.serverVarKeys.map (fun k => (k, r.fields.lookup k))
    let pairs := r.serverVarKeys.map (fun k => (k, (newVars.lookup k).getD (.prim .null)))
    match convList conv reg pairs with
    | none => none
    | some (reg', newFields) =>
      some (rinsert reg' cid { r with version := newVersion, fields := newFields }, oldVars)

/-- `convertToComponentIfNeeded(dao, renderer, componentResponse)`
(instance.js lines 51-63): a non-envelope value passes through; an
envelope for an existing componentId routes to `update` and returns the
existing instance; otherwise an instance is created from the template
resolved for the envelope's component name (`templateDao.getOrFetch`
abstracted as the resolution function `tpls`).  `fuel` bounds the
recursion through nested envelopes; `none` models a thrown error or fuel
exhaustion. -/
def convert (tpls : String → Template) : Nat → Registry → EncVal →
    Option (Registry × VarVal)
  | _, reg, .prim j => some (reg, .prim j)
  | 0, _, .compRef _ _ _ _ _ => none
  | f + 1, reg, .compRef _ comp id vars ver =>
    let cid := getComponentId comp id
    match reg.lookup cid with
    | some _ =>
      match updateWith (fun rg v => convert tpls f rg v) reg cid vars ver with
      | none => none
      | some (reg', _) => some (reg', .comp cid)
    | none =>
      match createWith (fun rg v => convert tpls f rg v) reg (tpls comp) vars id ver with
      | none => none
      | some (reg', cid') => some (reg', .comp cid')

/-- `InstanceDao.create` with the decoder fixed to
`convertToComponentIfNeeded` at the given fuel. -/
def createGo (tpls : String → Template) (fuel : Nat) (reg : Registry)
    (tmpl : Template) (vars : List (String × EncVal)) (id : String)
    (ver : Option String) : Option (Registry × String) :=
  createWith (fun rg v => convert tpls fuel rg v) reg tmpl vars id ver

/-- `InstanceDao.update` with the decoder fixed to
`convertToComponentIfNeeded` at the given fuel. -/
def updateGo (tpls : String → Template) (fuel : Nat) (reg : Registry)
    (cid : String) (newVars : List (String × EncVal)) (newVersion : Option String) :
    Option (Registry × List (String × Option VarVal)) :=
  updateWith (fun rg v => convert tpls fuel rg v) reg cid newVars newVersion

/-! ## Version lookup (instance.js lines 307-319, template.js lines 88-95) -/

/-- The durable local store of templates: `localStorage` keys
`fusewire_template_<name>` (parsed), plus the in-memory version index
`this.versions` of `TemplateDao`. -/
structure TplState where
  stored : List (String × Template)
  versions : List (String × String)
deriving DecidableEq, Repr

/-- `Template.fromJSON(parse(getItem(...) || '{}'))` (template.js lines
113-114): the stored template, or the all-`undefined` template (modelled
with empty strings) when nothing is stored. -/
def storedTemplateOf (st : TplState) (name : String) : Template :=
  (st.stored.lookup name).getD ⟨"", "", "", "", ""⟩

/-- `TemplateDao.getVersion(name)` (template.js lines 92-95): the stored
template's version, or `''` when absent/falsy. -/
def tplGetVersion (st : TplState) (name : String) : String :=
  (storedTemplateOf st name).version

/-- `InstanceDao.getVersion(component, id)` exactly as written
(instance.js lines 313-319): it computes `componentId` but then tests
`this.instances[component]` — the bare component name — falling back to
`TemplateDao.getVersion(component)`.  The result is `none` when the hit
record's `version` property is JavaScript `undefined`. -/
def getVersionCode (reg : Registry) (st : TplState) (component id : String) :
    Option String :=
  let _componentId := getComponentId component id
  match reg.lookup component with
  | some r => r.version
  | none => some (tplGetVersion st component)

/-- Modelled from the claim's words (for comparison with
`getVersionCode`): the registry's tracked version for the DERIVED
componentId when a record for that componentId exists, else the Template
Cache's locally stored version for the component name, else the empty
string. -/
def getVersionClaim (reg : Registry) (st : TplState) (component id : String) :
    String :=
  match reg.lookup (getComponentId component id) with
  | some r => r.version.getD ""
  | none => tplGetVersion st component

/-- The synchronous head of `Reactor._run` (reactor.js lines 170-175):
`isNew`, the variables gathered for the exchange, the version to compare
against, and whether a remote component exchange is performed. -/
structure RunPlan where
  isNew : Bool
  vars : List (String × VarVal)
  version : Option String
  fetches : Bool

/-- Build the `RunPlan` for `_run(componentId, component, id, mode,
initVars)` (reactor.js lines 170-175). -/
def runPlan (reg : Registry) (st : TplState) (componentId component id : String)
    (mode : Mode) (initVars : List (String × VarVal)) : RunPlan :=
  let isNew := (reg.lookup componentId).isNone
  { isNew := isNew
    vars := if isNew then initVars else extractVars reg componentId
    version := getVersionCode reg st component id
    fetches := runFetches mode }

/-! ## The react scheduler (reactor.js `react`, lines 115-152) -/

/-- One logical `react` execution for a fixed componentId: the
caller-supplied resolved mode, the effective (possibly downgraded) mode it
runs `_run` under, and its captured serial number. -/
structure RCall where
  userMode : Mode
  effMode : Mode
  serial : Nat
deriving DecidableEq, Repr

/-- The orchestrator state for a fixed componentId: the in-flight counter
(`this.inFlight[componentId]`, absent = idle), the logically active
`react` executions (entered their `try` block, not yet run their
`finally`), and the instance registry. -/
structure RState where
  counter : Option Nat
  active : List RCall
  reg : Registry

/-- Scheduler events for a single componentId, mirroring the suspension
structure of `react` under JavaScript's single-threaded execution: each
label is one atomic synchronous section. -/
inductive RLabel where
  /-- The SERVER_WAIT early return (reactor.js lines 121-125): counter
  present and resolved mode SERVER_WAIT → increment and return. -/
  | drop (m : Mode)
  /-- The main entry of a call with resolved mode `m` (reactor.js lines
  130-140): initialize the counter to 0 if absent, increment, capture the
  serial number, downgrade the mode, start `_run`. -/
  | start (m : Mode)
  /-- A registry mutation performed inside the unit of work of the `i`-th
  active call (`create`/`update` within `_run`); the new registry contents
  are unconstrained here. -/
  | work (i : Nat) (reg' : Registry)
  /-- The `finally` block of the `i`-th active call (reactor.js lines
  142-151). -/
  | finish (i : Nat)

/-- Small-step transition of the orchestrator state; `none` means the
event is not enabled in this state (the code cannot take that path). -/
def step (s : RState) : RLabel → Option RState
  | .drop m =>
    match s.counter with
    | some n => if m = Mode.SERVER_WAIT then some ⟨some (n + 1), s.active, s.reg⟩ else none
    | none => none
  | .start m =>
    -- the SERVER_WAIT early return (lines 121-125) preempts this path
    if s.counter.isSome && m = Mode.SERVER_WAIT then none
    else
      let serial := s.counter.getD 0 + 1
      some ⟨some serial, ⟨m, downgrade serial m, serial⟩ :: s.active, s.reg⟩
  | .work i reg' =>
    match s.active[i]? with
    | some _ => some ⟨s.counter, s.active, reg'⟩
    | none => none
  | .finish i =>
    match s.active[i]? with
    | some c => some ⟨(reactFinish c.effMode s.counter c.serial).1, s.active.eraseIdx i, s.reg⟩
    | none => none

/-- Run a list of scheduler events from a state. -/
def runSteps (s : RState) : List RLabel → Option RState
  | [] => some s
  | l :: ls => match step s l with
    | some s' => runSteps s' ls
    | none => none

/-- The idle initial state over a given registry: no counter, no active
calls. -/
def initR (reg : Registry) : RState := ⟨none, [], reg⟩

/-- A state is reachable if some event sequence leads to it from idle. -/
def ReachR (reg₀ : Registry) (s : RState) : Prop :=
  ∃ ls, runSteps (initR reg₀) ls = some s

/-- Whether an event issues a remote component exchange in state `s`: only
a `start` whose effective mode makes `_run` fetch (reactor.js line 175). -/
def fetchingStart (s : RState) (l : RLabel) : Bool :=
  match l with
  | .start m => runFetches (downgrade (s.counter.getD 0 + 1) m)
  | _ => false

/-- The respawn flag that the `finally` block of the `i`-th active call
computes in state `s` (reactor.js line 144). -/
def finishRespawn (s : RState) (i : Nat) : Bool :=
  match s.active[i]? with
  | some c => (reactFinish c.effMode s.counter c.serial).2
  | none => false

/-- Run a list of scheduler events, also counting how many of them issue a
remote component exchange. -/
def runCount (s : RState) : List RLabel → Option (RState × Nat)
  | [] => some (s, 0)
  | l :: ls => match step s l with
    | some s' =>
      match runCount s' ls with
      | some (t, n) => some (t, n + (if fetchingStart s l then 1 else 0))
      | none => none
    | none => none

/-- The inductive invariant of the `react` scheduler for one componentId:
every active call runs under its downgraded mode and a positive serial
number; at most one active call holds serial number 1; an absent counter
means no serial-1 call is active; a present counter is positive. -/
def Inv (s : RState) : Prop :=
  (∀ c ∈ s.active, c.effMode = downgrade c.serial c.userMode) ∧
  (∀ c ∈ s.active, 1 ≤ c.serial) ∧
  s.active.countP (fun c => c.serial == 1) ≤ 1 ∧
  (s.counter = none → ∀ c ∈ s.active, c.serial ≠ 1) ∧
  (∀ n, s.counter = some n → 1 ≤ n)

/-! ## Teardown (instance.js `remove`, lines 324-335) -/

/-- `InstanceDao.remove(id)` (instance.js lines 324-335): an untracked id
logs and returns; otherwise `instance.destroy()` runs inside `try` and the
record is deleted in `finally`, so a destroy fault still deletes and then
propagates.  `destroyFaults` tells whether a given instance's teardown
hook throws.  Returns (new registry, was the teardown hook invoked, does
an error propagate to the caller). -/
def removeModel (reg : Registry) (destroyFaults : String → Bool) (id : String) :
    Registry × Bool × Bool :=
  match reg.lookup id with
  | none => (reg, false, false)
  | some _ => (rdelete reg id, true, destroyFaults id)

/-! ## Rendering decision (instance.js `render`, lines 344-390) -/

/-- The observable outcome of one `InstanceDao.render` call on its own
componentId (the recursive calls on extracted sub-components, instance.js
lines 380-385, are themselves `render` calls and are listed in
`subRenders`). -/
structure RenderRes where
  fullRender : Bool
  patchedRunes : List String
  subRenders : List String
  newStoredVars : List (String × EncVal)

/-- `InstanceDao.render(container, componentId, isNew, template)`
(instance.js lines 344-390), for a tracked componentId: extract the
current variables, encode them (again with no mode argument, line 353),
persist the snapshot, diff against the previous snapshot `stored`,
replace component-valued variables by placeholders, and decide: full
render iff `isNew` or some changed key is outside the record's
`runesKeys`; otherwise patch exactly the changed keys whose value is not a
placeholder.  The container argument and the renderer collaborator are
external; `none` models the untracked-componentId throw. -/
def render1 (fuel : Nat) (reg : Registry) (stored : List (String × EncVal))
    (cid : String) (isNew : Bool) : Option RenderRes :=
  match reg.lookup cid with
  | none => none
  | some r =>
    let vars := extractVars reg cid
    match encodeVars fuel reg vars none with
    | none => none
    | some newEnc =>
      let changed := calculateChangedVars stored newEnc
      let isPlaceholder := fun k =>
        match vars.lookup k with | some (.comp _) => true | _ => false
      let subs := vars.filterMap (fun p =>
        match p.2 with | .comp c => some c | _ => none)
      let full := isNew || !(changed.all (fun k => r.runesKeys.contains k))
      let patched := if full then [] else changed.filter (fun k => !(isPlaceholder k))
      some ⟨full, patched, subs, newEnc⟩

/-! ## Template cache fetch (template.js `getOrFetch`, lines 111-129) -/

/-- `fixRunes` single-step scanner fuel recursion (template.js lines 6-11):
rewrite every occurrence of `(( $name ))` (the simplified binding syntax,
regex `\(\(\s*\$(\w+)\s*\)\)`) into `(({$name}))`.  `tryRune` consumes
`\s*\$(\w+)\s*\)\)` after an already-seen `((`. -/
def tryRune (l : List Char) : Option (List Char × List Char) :=
  match l.dropWhile (fun c => c.isWhitespace) with
  | '$' :: rest =>
    let w := rest.takeWhile isWordChar
    if w.isEmpty then none
    else
      match (rest.drop w.length).dropWhile (fun c => c.isWhitespace) with
      | ')' :: ')' :: rest' => some (w, rest')
      | _ => none
  | _ => none

/-- Global left-to-right scan of `fixRunes`: on a failed match the scanner
advances one character (the first `(`), as the JavaScript regex engine
does.  `fuel` dominates the input length, making the recursion structural. -/
def fixRunesAux : Nat → List Char → List Char
  | 0, l => l
  | _ + 1, [] => []
  | f + 1, '(' :: '(' :: rest =>
    match tryRune rest with
    | some (w, rest') =>
      '(' :: '(' :: '\x7b' :: '$' :: (w ++ '\x7d' :: ')' :: ')' :: fixRunesAux f rest')
    | none => '(' :: fixRunesAux f ('(' :: rest)
  | f + 1, c :: rest => c :: fixRunesAux f rest

/-- `fixRunes(htmlCode)` (template.js lines 6-11). -/
def fixRunes (html : String) : String :=
  String.mk (fixRunesAux (html.length + 1) html.data)

/-- `TemplateDao.setFromTemplateResponse(templateResponse)` (template.js
lines 135-154): normalize the markup with `fixRunes`, persist the template
under its component name, and update the in-memory version index.  The
debounced flush of the index to `fusewire_template_versions` alters no
state read by the modelled operations and is elided.  Returns the built
template and the new cache state. -/
def setFromTemplateResponse (st : TplState) (resp : Template) :
    Template × TplState :=
  let t : Template := { resp with htmlCode := fixRunes resp.htmlCode }
  (t, ⟨(resp.component, t) :: st.stored.filter (fun p => p.1 != resp.component),
       (resp.component, t.version) :: st.versions.filter (fun p => p.1 != resp.component)⟩)

/-- The cached-return condition of `TemplateDao.getOrFetch` (template.js
lines 115-120): the requested version is defined (`some`), the in-memory
index `this.versions` has exactly that version for the name, and the
stored template's own version is truthy and also equal to it. -/
def cacheHit (st : TplState) (name : String) (version : Option String) : Bool :=
  let storedTemplate := storedTemplateOf st name
  let indexHit : Bool :=
    match version, st.versions.lookup name with
    | some v, some iv => iv == v
    | _, _ => false
  indexHit && storedTemplate.version != "" && storedTemplate.version == version.getD ""

/-- `TemplateDao.getOrFetch(name, version, mode)` (template.js lines
111-129).  The stored template is returned without a fetch exactly under
`cacheHit`; otherwise one remote `fetchTemplates` round-trip happens,
whose response list is the parameter `fetchResp` (an empty response
returns the stored template unchanged; otherwise the first response is
installed via `setFromTemplateResponse`).  Returns (result template,
whether a fetch was performed, new cache state). -/
def getOrFetch (st : TplState) (name : String) (version : Option String)
    (fetchResp : List Template) : Template × Bool × TplState :=
  if cacheHit st name version then (storedTemplateOf st name, false, st)
  else
    match fetchResp with
    | [] => (storedTemplateOf st name, true, st)
    | r :: _ =>
      let (t, st') := setFromTemplateResponse st r
      (t, true, st')

/-! ## Entry points and work ordering (reactor.js `start` lines 89-104,
`react` lines 115-120) -/

/-- A unit of externally observable work performed by an entry point, in
program order.  All remote exchanges, registry mutations, instance
creation and rendering happen inside the awaited unit of work
(`_run`), represented by `runUnit`. -/
inductive Effect where
  | containerInsert
  | daoInit
  | runUnit (mode : String)
deriving DecidableEq, Repr

/-- `Reactor.start(container, component, id, vars, mode)` (reactor.js
lines 89-104) as its ordered effect trace: the reactor root is created and
appended to the caller's container (line 95), the `InstanceDao` is built
if missing (lines 96-102), and only then is the mode resolved as an
argument to `_run` (line 103) — an invalid mode throws at that point. -/
def startModel (hasDao : Bool) (userMode : Option String) (defaultMode : String) :
    List Effect × Option FWErr :=
  let pre := [Effect.containerInsert] ++ (if hasDao then [] else [Effect.daoInit])
  match getReactorModeStr userMode defaultMode with
  | .error e => (pre, some e)
  | .ok m => (pre ++ [Effect.runUnit m], none)

/-- `Reactor.react(component, mode)` (reactor.js lines 115-120) as its
ordered effect trace up to mode resolution: the registry lookup
`getComponentNameAndId` (which throws component-not-found for an unknown
instance) and the mode resolution both precede any work. -/
def reactModel (known : Bool) (userMode : Option String) (defaultMode : String) :
    List Effect × Option FWErr :=
  if !known then ([], some .componentNotFound)
  else
    match getReactorModeStr userMode defaultMode with
    | .error e => ([], some e)
    | .ok m => ([Effect.runUnit m], none)

/-! ## Derived notions used in the statements -/

/-- The `runesKeys` stored for a tracked componentId
(`InstanceDao.getRuneKeys`, instance.js lines 266-271; `[]` models the
untracked throw, unused below). -/
def runeKeysOf (reg : Registry) (cid : String) : List String :=
  match reg.lookup cid with
  | some r => r.runesKeys
  | none => []

/-- Whether a variable of a tracked componentId currently holds a nested
component instance (and so renders as a placeholder, instance.js lines
360-365). -/
def holdsComponent (reg : Registry) (cid k : String) : Bool :=
  match (extractVars reg cid).lookup k with
  | some (.comp _) => true
  | _ => false

/-- What `convertToComponentIfNeeded` turns an envelope value into: a
plain value stays, a component envelope becomes a reference to the derived
componentId. -/
def decEntryVal : EncVal → VarVal
  | .prim j => .prim j
  | .compRef _ c i _ _ => .comp (getComponentId c i)

/-- An envelope with its `mode` and `version` erased to `undefined` — the
shape `encodeVars` reproduces for a nested component reference after a
decode/encode round trip. -/
def stripTop : EncVal → EncVal
  | .prim j => .prim j
  | .compRef _ c i vs _ => .compRef none c i vs none

/-- The derived componentId of a component-envelope value. -/
def ncidOf : EncVal → Option String
  | .compRef _ c i _ _ => some (getComponentId c i)
  | .prim _ => none

/-- Is an envelope a plain (non-component) value? -/
def isPrimE : EncVal → Bool
  | .prim _ => true
  | .compRef _ _ _ _ _ => false

/-- All values of a variable map are plain values. -/
def allPrim (l : List (String × EncVal)) : Bool := l.all (fun p => isPrimE p.2)

/-- An envelope value of nesting depth at most one: plain, or a component
reference all of whose variables are plain (with distinct names). -/
def OneLevel : EncVal → Prop
  | .prim _ => True
  | .compRef _ _ _ vs _ => allPrim vs = true ∧ (vs.map Prod.fst).Nodup

/-- The record `createGo` stores for a depth-one component envelope
`{mode, component := n, id := i, vars := vs, version := ver}`. -/
def nrec (tpls : String → Template) (n i : String) (vs : List (String × EncVal))
    (ver : Option String) : InstRec :=
  ⟨n, i, vs.map Prod.fst, (vs.map Prod.fst).filter (fun k => runeMatch (tpls n).htmlCode k),
   ver, vs.map (fun p => (p.1, decEntryVal p.2))⟩

/-- The `mode` field of the variable `k` of a component envelope, when
that variable is itself a component envelope (`none` = no such nested
envelope; `some none` = nested envelope with an `undefined` mode). -/
def varModeOf (e : EncVal) (k : String) : Option (Option String) :=
  match e with
  | .compRef _ _ _ vs _ =>
    match vs.lookup k with
    | some (.compRef m _ _ _ _) => some m
    | _ => none
  | .prim _ => none

/-! ## Concrete inputs used by the scenario parts and counterexamples -/

/-- A template store resolving every name to an empty template with that
component name (the fields other than the name are irrelevant to the
facts evaluated on it). -/
def tplsId : String → Template := fun n => ⟨n, "", "", "", ""⟩

/-- A template store holding the `counter` template whose markup binds
`$count` to a single rune slot. -/
def tplsCounter : String → Template := fun n =>
  if n = "counter" then ⟨"counter", "", "", "<div>(({$count}))</div>", "v1"⟩
  else ⟨n, "", "", "", ""⟩

/-- Registry for the C5 failing input: component `c_1` tracks server keys
`a = 1`, `b = 2`. -/
def regC5 : Registry :=
  [("c_1", ⟨"c", "1", ["a", "b"], [], some "v1",
    [("a", .prim (.num 1)), ("b", .prim (.num 2))]⟩)]

/-- The C4 counterexample envelope: component `B` whose variable `c` is a
nested component reference to `C` carrying mode `SERVER`. -/
def xEnvC4 : EncVal :=
  .compRef (some "SERVER") "B" ""
    [("c", .compRef (some "SERVER") "C" "" [("n", .prim (.num 5))] none),
     ("s", .prim (.num 7))] none

/-- The registry produced by decoding `xEnvC4` into an empty registry. -/
def regC4 : Registry :=
  [("B", ⟨"B", "", ["c", "s"], [], none, [("c", .comp "C"), ("s", .prim (.num 7))]⟩),
   ("C", ⟨"C", "", ["n"], [], none, [("n", .prim (.num 5))]⟩)]

/-- Registry for the C7 failing input: a record exists for the derived
componentId `counter_1` at tracked version `v5`. -/
def regC7 : Registry := [("counter_1", ⟨"counter", "1", [], [], some "v5", []⟩)]

/-- Template-cache state for the C7 failing input: `counter` stored
locally at version `v1`. -/
def stC7 : TplState := ⟨[("counter", ⟨"counter", "", "", "", "v1"⟩)], [("counter", "v1")]⟩

/-- Template-cache state for the C8 scenario: `counter` cached at `v1`
with an agreeing version index. -/
def st8W : TplState :=
  ⟨[("counter", ⟨"counter", "js", "css", "html", "v1"⟩)], [("counter", "v1")]⟩

/-- The template response the server returns for the C8 scenario. -/
def t2W : Template := ⟨"counter", "j2", "c2", "h2", "v2"⟩

/-- Template-cache state for the C8 counterexample: the version index and
the stored template both hold the empty-string version for `n`. -/
def st8E : TplState := ⟨[("n", ⟨"n", "", "", "", ""⟩)], [("n", "")]⟩

/-- The registry after creating `counter` with `{count: 0}` from the
`tplsCounter` template (whose markup rune-binds `count`). -/
def regC6a : Registry :=
  [("counter", ⟨"counter", "", ["count"], ["count"], some "v1",
    [("count", .prim (.num 0))]⟩)]

/-- The registry after `update("counter", {count: 1}, "v1")`. -/
def regC6b : Registry :=
  [("counter", ⟨"counter", "", ["count"], ["count"], some "v1",
    [("count", .prim (.num 1))]⟩)]

/-- Event trace of two overlapping `react(SERVER)` calls on one
componentId: call 1's preliminary CSR pass (start+finish), call 1's main
SERVER section, call 2's preliminary CSR pass (start+finish) and main
section arriving while call 1's exchange is outstanding, call 2's
completion, and finally call 1's completion. -/
def twoServerTrace : List RLabel :=
  [.start .CSR, .finish 0, .start .SERVER, .start .CSR, .finish 0,
   .start .SERVER, .finish 0, .finish 0]

/-- Event trace for the C2 counterexample: a CSR call becomes the serial-1
call, then a SERVER_WAIT interaction is dropped onto the counter while it
is outstanding. -/
def csrOverlapTrace : List RLabel := [.start .CSR, .drop .SERVER_WAIT]

/-! # Helper lemmas -/

theorem lookup_filter_ne {α : Type} (l : List (String × α)) (k : String) :
    (l.filter (fun p => p.1 != k)).lookup k = none := by
  induction l with
  | nil => rfl
  | cons a t ih =>
    rcases a with ⟨k', v⟩
    by_cases h : k' = k
    · subst h
      simpa [List.filter_cons] using ih
    · simp only [List.filter_cons]
      simp only [bne_iff_ne, ne_eq, h, not_false_eq_true, if_true]
      simp [List.lookup, beq_eq_false_iff_ne.mpr (Ne.symm h), ih]

theorem lookup_cons_self {α : Type} (k : String) (v : α) (l : List (String × α)) :
    ((k, v) :: l).lookup k = some v := by
  simp [List.lookup]

theorem lookup_cons_ne {α : Type} (k k' : String) (v : α) (l : List (String × α))
    (h : k ≠ k') : ((k', v) :: l).lookup k = l.lookup k := by
  simp [List.lookup, beq_eq_false_iff_ne.mpr h]

theorem filter_ne_of_lookup_none {α : Type} (l : List (String × α)) (k : String)
    (h : l.lookup k = none) : l.filter (fun p => p.1 != k) = l := by
  induction l with
  | nil => rfl
  | cons a t ih =>
    rcases a with ⟨k', v⟩
    by_cases hk : k = k'
    · subst hk
      simp [List.lookup] at h
    · rw [lookup_cons_ne k k' v t hk] at h
      simp [List.filter_cons, bne_iff_ne, Ne.symm hk, ih h]

theorem countP_eraseIdx_add {α : Type} (p : α → Bool) :
    ∀ (l : List α) (i : Nat) (c : α), l[i]? = some c →
      l.countP p = (l.eraseIdx i).countP p + (if p c then 1 else 0) := by
  intro l
  induction l with
  | nil => intro i c h; simp at h
  | cons a t ih =>
    intro i c h
    cases i with
    | zero =>
      rw [List.getElem?_cons_zero] at h
      injection h with h
      subst h
      simp [List.eraseIdx, List.countP_cons]
    | succ j =>
      rw [List.getElem?_cons_succ] at h
      have := ih j c h
      simp [List.eraseIdx, List.countP_cons, this]
      omega

/-! # Claim theorems -/

/-- Claim C10: `remove(componentId)` leaves the registry with no record
for that componentId on every exit path — the record is deleted even when
the teardown hook faults (in which case the fault propagates), and an
untracked componentId returns silently without invoking any teardown hook
and without raising component-not-found. -/
theorem remove_scoped_cleanup (reg : Registry) (destroyFaults : String → Bool)
    (id : String) :
    ((removeModel reg destroyFaults id).1.lookup id = none) ∧
    (reg.lookup id = none → removeModel reg destroyFaults id = (reg, false, false)) ∧
    (∀ r, reg.lookup id = some r →
      removeModel reg destroyFaults id = (rdelete reg id, true, destroyFaults id)) := by
  refine ⟨?_, ?_, ?_⟩
  · unfold removeModel
    cases h : reg.lookup id with
    | none => simpa using h
    | some r => simpa [rdelete] using lookup_filter_ne reg id
  · intro h; unfold removeModel; rw [h]
  · intro r h; unfold removeModel; rw [h]

/-- Witness for `remove_scoped_cleanup`: a registry tracking `c_1` with a
faulting teardown hook still ends with no record for `c_1`, and the fault
propagates; an untracked id returns silently. -/
theorem remove_scoped_cleanup_witness :
    ((removeModel regC5 (fun _ => true) "c_1").1.lookup "c_1" = none) ∧
    (removeModel regC5 (fun _ => true) "c_1").2.2 = true ∧
    removeModel regC5 (fun _ => true) "zzz" = (regC5, false, false) := by
  refine ⟨(remove_scoped_cleanup regC5 (fun _ => true) "c_1").1, rfl, ?_⟩
  exact (remove_scoped_cleanup regC5 (fun _ => true) "zzz").2.1 rfl

/-- Claim C7 (code bug): the version used for comparison in a unit of work
should be the registry's tracked version for the derived componentId, but
`InstanceDao.getVersion` computes the componentId and then indexes
`this.instances` by the bare component name.  With a record for
`counter_1` tracked at version `v5` and the template cache holding
`counter` at `v1`, `_run`'s version is `v1` while the claim requires
`v5`. -/
theorem getVersion_ignores_derived_id :
    (runPlan regC7 stC7 "counter_1" "counter" "1" Mode.CSR []).version = some "v1" ∧
    getVersionCode regC7 stC7 "counter" "1" = some "v1" ∧
    (regC7.lookup (getComponentId "counter" "1")).isSome = true ∧
    (regC7.lookup (getComponentId "counter" "1")).map (fun r => r.version) =
      some (some "v5") ∧
    getVersionClaim regC7 stC7 "counter" "1" = "v5" := by
  exact ⟨rfl, rfl, rfl, rfl, rfl⟩

/-- Claim C5 (code bug): the map of old values handed to the instance's
`update` hook should contain exactly the keys whose serialized values
changed, but `InstanceDao.update` captures `oldVars[key]` for every
tracked server-owned key.  Updating `{a: 1, b: 2}` with `{a: 1, b: 3}`
passes `{a: 1, b: 2}` to the hook: key `a` is present although its value
is unchanged (`varChanged` is false for it). -/
theorem update_hook_reports_all_keys :
    ∃ reg' old,
      updateGo tplsId 3 regC5 "c_1"
        [("a", .prim (.num 1)), ("b", .prim (.num 3))] (some "v2") =
        some (reg', old) ∧
      old.map Prod.fst = ["a", "b"] ∧
      old.lookup "a" = some (some (.prim (.num 1))) ∧
      varChanged (.prim (.num 1)) (.prim (.num 1)) = false ∧
      (reg'.lookup "c_1").map (fun r => r.fields.lookup "a") =
        some (some (.prim (.num 1))) := by
  exact ⟨_, _, rfl, rfl, rfl, rfl, rfl⟩

/-- Counterexample to claim C9 as stated, in two independent ways.
First, the unrecognized mode string `"toString"` — not one of the five
`ReactorModes` names — is ACCEPTED by the validation, because the
property read `typeof(ReactorModes['toString'])` (reactor.js line 17)
finds the member inherited from `Object.prototype`; the call raises no
invalid-mode error and proceeds to its unit of work, which issues a
remote exchange (the string differs from `CSR` and `CSR_ONLY`).  Second,
`start` with the genuinely rejected mode `"TURBO"` does fail, but only
AFTER the reactor root has been appended to the caller's container
(reactor.js line 95 precedes the `getReactorMode` call on line 103) — so
the failure does not precede "any … container insertion". -/
theorem mode_validation_counterexample :
    reactorModeNames.contains "toString" = false ∧
    getReactorModeStr (some "toString") "SSR" = .ok "toString" ∧
    reactModel true (some "toString") "SSR" = ([.runUnit "toString"], none) ∧
    runFetchesStr "toString" = true ∧
    reactorModeNames.contains "TURBO" = false ∧
    startModel false (some "TURBO") "SSR" =
      ([.containerInsert, .daoInit], some .invalidMode) ∧
    Effect.containerInsert ∈ (startModel false (some "TURBO") "SSR").1 := by
  exact ⟨rfl, rfl, rfl, rfl, rfl, rfl, by decide⟩

/-- Claim C9 (amended): a `start` or `react` call fails with the
invalid-mode error exactly when its resolved mode string (the explicit
value when truthy, else the configured default) is neither one of the
five `ReactorModes` names nor a property name `ReactorModes` inherits
from `Object.prototype`.  When the error fires, it precedes any remote
exchange, registry mutation, instance creation, or render — the unit of
work never starts; for `react` no work at all precedes the failure,
while for `start` the root container insertion (and, on a first start,
the DAO construction) happens before mode validation.  An unrecognized
mode string that names an `Object.prototype` member (e.g. `toString`,
`valueOf`, `__proto__`) is accepted instead of failing, and its unit of
work issues a remote exchange. -/
theorem invalid_mode_prework :
    (∀ um dm, getReactorModeStr um dm = .error .invalidMode →
      reactModel true um dm = ([], some .invalidMode) ∧
      (∀ hasDao, (startModel hasDao um dm).2 = some .invalidMode ∧
        ∀ e ∈ (startModel hasDao um dm).1,
          e = .containerInsert ∨ e = .daoInit)) ∧
    (∀ um dm, getReactorModeStr um dm = .error .invalidMode ↔
      reactorModesHasProp (resolveModeStr um dm) = false) ∧
    (∀ dm, ∀ m ∈ objectProtoKeys,
      reactorModeNames.contains m = false ∧
      getReactorModeStr (some m) dm = .ok m ∧
      reactModel true (some m) dm = ([.runUnit m], none) ∧
      runFetchesStr m = true) := by
  refine ⟨?_, ?_, ?_⟩
  · intro um dm h
    refine ⟨by simp [reactModel, h], ?_⟩
    intro hasDao
    cases hasDao <;> simp [startModel, h]
  · intro um dm
    unfold getReactorModeStr
    by_cases hc : reactorModesHasProp (resolveModeStr um dm) = true
    · simp [hc]
    · rw [Bool.not_eq_true] at hc
      simp [hc]
  · intro dm m hm
    simp only [objectProtoKeys, List.mem_cons, List.not_mem_nil, or_false] at hm
    rcases hm with rfl | rfl | rfl | rfl | rfl | rfl | rfl | rfl | rfl | rfl | rfl | rfl
    all_goals exact ⟨rfl, rfl, rfl, rfl⟩

/-- Witness for `invalid_mode_prework`: the rejected explicit mode
`"TURBO"` fails before any work, while the prototype-inherited name
`"toString"` slips through validation. -/
theorem invalid_mode_prework_witness :
    reactModel true (some "TURBO") "SSR" = ([], some .invalidMode) ∧
    (startModel true (some "TURBO") "SSR").2 = some .invalidMode ∧
    reactModel true (some "toString") "SSR" = ([.runUnit "toString"], none) := by
  have h := invalid_mode_prework.1 (some "TURBO") "SSR" rfl
  have h2 := invalid_mode_prework.2.2 "SSR" "toString" (by decide)
  exact ⟨h.1, (h.2 true).1, h2.2.2.1⟩

/-- Counterexample to claim C8 as stated: with the version index holding
`""` for `n`, the stored template's own version `""`, and requested
version `""`, the index entry equals the requested version and the stored
template's version equals it too — yet `getOrFetch` performs a remote
fetch, because the code additionally requires the stored version to be
truthy (template.js line 117). -/
theorem getOrFetch_empty_version_fetches :
    st8E.versions.lookup "n" = some "" ∧
    (storedTemplateOf st8E "n").version = "" ∧
    (getOrFetch st8E "n" (some "") [⟨"n", "", "", "", "v9"⟩]).2.1 = true := by
  exact ⟨rfl, rfl, rfl⟩

/-- Claim C8 (amended): `getOrFetch(name, version, mode)` returns the
locally cached template without any remote fetch if and only if the
version index entry for `name` equals the requested version, the stored
template object's own version also equals it, and that version is
non-empty (a falsy stored version forces a refetch); in every other case
it performs exactly one remote template fetch and — when the response
carries a template — installs the first response as the new cached entry
under its component name (an empty response leaves the cache unchanged and
returns the stored copy).  In particular `getOrFetch("counter", "v2",
SERVER)` with `"counter"` cached at `"v1"` triggers the fetch and leaves
the cache holding version `"v2"`. -/
theorem getOrFetch_cache_behavior :
    (∀ st name version fetchResp,
      ((getOrFetch st name version fetchResp).2.1 = false ↔
        ∃ v, version = some v ∧ st.versions.lookup name = some v ∧
          (storedTemplateOf st name).version = v ∧ v ≠ "") ∧
      ((getOrFetch st name version fetchResp).2.1 = false →
        getOrFetch st name version fetchResp = (storedTemplateOf st name, false, st)) ∧
      (∀ t rest, fetchResp = t :: rest →
        (getOrFetch st name version fetchResp).2.1 = true →
        (getOrFetch st name version fetchResp).1 =
          { t with htmlCode := fixRunes t.htmlCode } ∧
        ((getOrFetch st name version fetchResp).2.2).stored.lookup t.component =
          some { t with htmlCode := fixRunes t.htmlCode } ∧
        ((getOrFetch st name version fetchResp).2.2).versions.lookup t.component =
          some t.version) ∧
      (fetchResp = [] →
        (getOrFetch st name version fetchResp).1 = storedTemplateOf st name ∧
        (getOrFetch st name version fetchResp).2.2 = st)) ∧
    getOrFetch st8W "counter" (some "v2") [t2W] =
      ({ t2W with htmlCode := fixRunes t2W.htmlCode }, true,
       ⟨[("counter", { t2W with htmlCode := fixRunes t2W.htmlCode })],
        [("counter", "v2")]⟩) := by
  constructor
  · intro st name version fetchResp
    have hhit : cacheHit st name version = true ↔
        ∃ v, version = some v ∧ st.versions.lookup name = some v ∧
          (storedTemplateOf st name).version = v ∧ v ≠ "" := by
      unfold cacheHit
      cases version with
      | none => simp
      | some v =>
        cases hl : st.versions.lookup name with
        | none => simp [hl]
        | some iv =>
          simp only [hl, Bool.and_eq_true, beq_iff_eq, bne_iff_ne, ne_eq,
            Option.getD_some, Option.some.injEq]
          constructor
          · rintro ⟨⟨hiv, hne⟩, hv⟩
            exact ⟨v, rfl, hiv, hv, fun hc => hne (hv.trans hc)⟩
          · rintro ⟨w, rfl, hiw, hsw, hne⟩
            exact ⟨⟨hiw, fun hc => hne (hsw.symm.trans hc)⟩, hsw⟩
    refine ⟨?_, ?_, ?_, ?_⟩
    · rw [← hhit]
      unfold getOrFetch
      by_cases hc : cacheHit st name version
      · simp [hc]
      · simp only [hc, if_false, Bool.false_eq_true, iff_false]
        cases fetchResp <;> simp [setFromTemplateResponse]
    · intro h
      unfold getOrFetch at h ⊢
      by_cases hc : cacheHit st name version
      · simp [hc]
      · exfalso
        simp only [hc, if_false] at h
        cases fetchResp <;> simp [setFromTemplateResponse] at h
    · rintro t rest rfl hfetch
      by_cases hc : cacheHit st name version
      · exfalso
        unfold getOrFetch at hfetch
        simp [hc] at hfetch
      · unfold getOrFetch
        simp only [hc, Bool.false_eq_true, if_false]
        exact ⟨rfl, by simp [setFromTemplateResponse, lookup_cons_self],
          by simp [setFromTemplateResponse, lookup_cons_self]⟩
    · rintro rfl
      unfold getOrFetch
      by_cases hc : cacheHit st name version <;> simp [hc]
  · rfl

/-- Witness for `getOrFetch_cache_behavior`: a cache hit at version `v1`
returns the stored template with no fetch, and the `v2` request fetches
and installs. -/
theorem getOrFetch_cache_behavior_witness :
    getOrFetch st8W "counter" (some "v1") [] =
      (storedTemplateOf st8W "counter", false, st8W) ∧
    (getOrFetch st8W "counter" (some "v2") [t2W]).2.2.versions.lookup "counter" =
      some "v2" := by
  constructor
  · exact (getOrFetch_cache_behavior.1 st8W "counter" (some "v1") []).2.1 rfl
  · have h := (getOrFetch_cache_behavior.1 st8W "counter" (some "v2") [t2W]).2.2.1
      t2W [] rfl rfl
    exact h.2.2

/-- Counterexample to claim C2 as stated: a serial-1 `react` call in CSR
mode (e.g. the CSR pass of a SERVER call, or a plain CSR reaction) can
have the counter above 1 at completion — here a SERVER_WAIT interaction
was dropped onto it while it was outstanding — yet no respawn is issued,
because reactor.js line 144 also requires the completing call's own mode
to differ from CSR.  The counter is still cleared. -/
theorem respawn_skipped_for_csr_serial1 :
    runSteps (initR []) csrOverlapTrace =
      some ⟨some 2, [⟨.CSR, .CSR, 1⟩], []⟩ ∧
    (some 2 : Option Nat).getD 0 > 1 ∧
    finishRespawn ⟨some 2, [⟨.CSR, .CSR, 1⟩], []⟩ 0 = false ∧
    step ⟨some 2, [⟨.CSR, .CSR, 1⟩], []⟩ (.finish 0) = some ⟨none, [], []⟩ := by
  exact ⟨rfl, by decide, rfl, rfl⟩

/-- Claim C2 (amended): when the serial-number-1 call for a componentId
completes (successfully or with an error), the in-flight counter is
cleared entirely; when additionally the completing call's effective mode
is not CSR and the counter is still above 1 (overlapping calls arrived),
the respawn flag is set, re-issuing exactly one fresh `react` call with
the original caller-supplied mode after the clear — a CSR serial-1 call
never respawns.  A call with a serial number other than 1 changes no
bookkeeping and never respawns.  For two overlapping `react(SERVER)`
calls on one componentId (`twoServerTrace`), the two calls and their CSR
collapses issue exactly one remote exchange between them, and the first
call's completion computes a set respawn flag while still holding its
original SERVER mode; the respawned call's unit of work reads the
instance's variables current in the registry when it runs. -/
theorem respawn_after_clear :
    (∀ eff counter, (reactFinish eff counter 1).1 = none) ∧
    (∀ eff counter, (reactFinish eff counter 1).2 = true ↔
      eff ≠ Mode.CSR ∧ counter.getD 0 > 1) ∧
    (∀ eff counter serial, serial ≠ 1 →
      reactFinish eff counter serial = (counter, false)) ∧
    runCount (initR []) twoServerTrace = some (initR [], 1) ∧
    (∃ s₇, runSteps (initR []) (twoServerTrace.take 7) = some s₇ ∧
      finishRespawn s₇ 0 = true ∧ s₇.counter = some 3 ∧
      s₇.active = [⟨.SERVER, .SERVER, 1⟩]) ∧
    (∀ reg st cid component id mode initVars, (reg.lookup cid).isSome = true →
      (runPlan reg st cid component id mode initVars).vars = extractVars reg cid) := by
  refine ⟨?_, ?_, ?_, rfl, ?_, ?_⟩
  · intro eff counter; rfl
  · intro eff counter
    simp [reactFinish]
  · intro eff counter serial h
    simp [reactFinish, h]
  · exact ⟨⟨some 3, [⟨.SERVER, .SERVER, 1⟩], []⟩, rfl, rfl, rfl, rfl⟩
  · intro reg st cid component id mode initVars h
    unfold runPlan
    cases hl : reg.lookup cid with
    | none => rw [hl] at h; cases h
    | some r => simp [hl]

/-- Witness for `respawn_after_clear`: concrete instantiations of the
hypothesis-bearing conjuncts. -/
theorem respawn_after_clear_witness :
    reactFinish Mode.CSR (some 5) 2 = (some 5, false) ∧
    (reactFinish Mode.SERVER (some 2) 1).2 = true ∧
    (runPlan regC5 stC7 "c_1" "c" "1" Mode.SERVER []).vars = extractVars regC5 "c_1" := by
  refine ⟨respawn_after_clear.2.2.1 Mode.CSR (some 5) 2 (by decide), ?_, ?_⟩
  · exact (respawn_after_clear.2.1 Mode.SERVER (some 2)).mpr ⟨by decide, by decide⟩
  · exact respawn_after_clear.2.2.2.2.2 regC5 stC7 "c_1" "c" "1" Mode.SERVER [] rfl

/-- Claim C3: a `react` call resolved to SERVER_WAIT that arrives while an
in-flight counter is present only increments the counter and returns:
the set of active units of work is unchanged, the registry (hence every
instance record and server-owned variable value) is untouched, the event
issues no remote exchange, and the main entry path (which would start a
new unit of work) is disabled for it. -/
theorem server_wait_collision_drop (s s' : RState) (n : Nat) (m : Mode)
    (hc : s.counter = some n) :
    (step s (.drop m) = some s' →
      s'.counter = some (n + 1) ∧ s'.active = s.active ∧ s'.reg = s.reg ∧
      fetchingStart s (.drop m) = false) ∧
    step s (.start Mode.SERVER_WAIT) = none := by
  constructor
  · intro h
    rw [step, hc] at h
    by_cases hm : m = Mode.SERVER_WAIT
    · simp only [hm, if_true, Option.some.injEq] at h
      subst h
      exact ⟨rfl, rfl, rfl, rfl⟩
    · simp [hm] at h
  · rw [step, hc]
    simp

/-- Witness for `server_wait_collision_drop`: a SERVER_WAIT collision on a
counter at 1 bumps it to 2, keeps the single active call and the registry,
and cannot take the start path. -/
theorem server_wait_collision_drop_witness :
    (step ⟨some 1, [⟨.SERVER, .SERVER, 1⟩], regC5⟩ (.drop .SERVER_WAIT) =
      some ⟨some 2, [⟨.SERVER, .SERVER, 1⟩], regC5⟩) ∧
    step ⟨some 1, [⟨.SERVER, .SERVER, 1⟩], regC5⟩ (.start .SERVER_WAIT) = none := by
  have h := server_wait_collision_drop ⟨some 1, [⟨.SERVER, .SERVER, 1⟩], regC5⟩
    ⟨some 2, [⟨.SERVER, .SERVER, 1⟩], regC5⟩ 1 Mode.SERVER_WAIT rfl
  exact ⟨rfl, h.2⟩

theorem inv_step (s s' : RState) (l : RLabel) (hInv : Inv s)
    (h : step s l = some s') : Inv s' := by
  obtain ⟨h1, h2, h3, h4, h5⟩ := hInv
  cases l with
  | drop m =>
    cases hc : s.counter with
    | none => rw [step, hc] at h; cases h
    | some n =>
      rw [step, hc] at h
      by_cases hm : m = Mode.SERVER_WAIT
      · simp only [hm, if_true, Option.some.injEq] at h
        subst h
        refine ⟨h1, h2, h3, ?_, ?_⟩
        · intro hx; cases hx
        · intro n' hn'
          injection hn' with hn'
          omega
      · simp [hm] at h
  | start m =>
    rw [step] at h
    by_cases hg : (s.counter.isSome && decide (m = Mode.SERVER_WAIT)) = true
    · rw [if_pos hg] at h; cases h
    · rw [if_neg hg] at h
      injection h with h
      subst h
      refine ⟨?_, ?_, ?_, ?_, ?_⟩
      · intro c hc
        rcases List.mem_cons.mp hc with rfl | hmem
        · rfl
        · exact h1 c hmem
      · intro c hc
        rcases List.mem_cons.mp hc with rfl | hmem
        · exact Nat.succ_le_succ (Nat.zero_le _)
        · exact h2 c hmem
      · rw [List.countP_cons]
        cases hcn : s.counter with
        | none =>
          have hz : s.active.countP (fun c => c.serial == 1) = 0 :=
            List.countP_eq_zero.mpr (fun c hc =>
              by simpa using h4 hcn c hc)
          simp [hcn, hz]
        | some n =>
          have hn := h5 n hcn
          have hne : (((n + 1 : Nat) == 1) = false) := by
            simp only [beq_eq_false_iff_ne, ne_eq]
            omega
          simp only [hcn, Option.getD_some, hne, if_false]
          simpa using h3
      · intro hx; cases hx
      · intro n' hn'
        injection hn' with hn'
        omega
  | work i reg' =>
    cases ha : s.active[i]? with
    | none => rw [step, ha] at h; cases h
    | some c =>
      rw [step, ha] at h
      injection h with h
      subst h
      exact ⟨h1, h2, h3, h4, h5⟩
  | finish i =>
    cases ha : s.active[i]? with
    | none => rw [step, ha] at h; cases h
    | some c =>
      rw [step, ha] at h
      injection h with h
      subst h
      have hmem : ∀ x ∈ s.active.eraseIdx i, x ∈ s.active :=
        fun x hx => (List.eraseIdx_sublist s.active i).subset hx
      refine ⟨fun c' hc' => h1 c' (hmem c' hc'),
        fun c' hc' => h2 c' (hmem c' hc'),
        ((List.eraseIdx_sublist s.active i).countP_le _).trans h3, ?_, ?_⟩
      · intro hnone c' hc'
        unfold reactFinish at hnone
        by_cases hs : c.serial = 1
        · have hcount := countP_eraseIdx_add (fun c => c.serial == 1) s.active i c ha
          have hpc : ((fun (c : RCall) => c.serial == 1) c = true) := by simp [hs]
          rw [hpc] at hcount
          simp only [if_true] at hcount
          have hz : (s.active.eraseIdx i).countP (fun c => c.serial == 1) = 0 := by
            omega
          have := List.countP_eq_zero.mp hz c' hc'
          simpa using this
        · simp only [hs, if_false] at hnone
          exact h4 hnone c' (hmem c' hc')
      · intro n' hn'
        unfold reactFinish at hn'
        by_cases hs : c.serial = 1
        · simp [hs] at hn'
        · simp only [hs, if_false] at hn'
          exact h5 n' hn'

theorem inv_runSteps (ls : List RLabel) :
    ∀ s s', Inv s → runSteps s ls = some s' → Inv s' := by
  induction ls with
  | nil =>
    intro s s' hInv h
    rw [runSteps] at h
    injection h with h
    subst h
    exact hInv
  | cons l ls ih =>
    intro s s' hInv h
    rw [runSteps] at h
    cases hstep : step s l with
    | none => rw [hstep] at h; cases h
    | some s₁ =>
      rw [hstep] at h
      exact ih s₁ s' (inv_step s s₁ l hInv hstep) h

theorem inv_init (reg : Registry) : Inv (initR reg) := by
  refine ⟨?_, ?_, ?_, ?_, ?_⟩
  · intro c hc; cases hc
  · intro c hc; cases hc
  · simp [initR]
  · intro hx c hc; cases hc
  · intro n hn; cases hn

/-- Claim C1: at most one remote exchange per componentId is outstanding
at any time.  Whenever a `react` call's captured serial number is greater
than 1 and its mode is not CSR, the downgrade rule collapses the
execution to CSR; in every reachable scheduler state, every active call
with serial number above 1 runs in effective mode CSR and performs no
remote component fetch, every fetching call holds serial number 1, and
the number of active calls performing a remote component fetch is at most
one. -/
theorem react_overlap_collapse (reg₀ : Registry) (s : RState)
    (h : ReachR reg₀ s) :
    (∀ serial m, serial > 1 → m ≠ Mode.CSR → downgrade serial m = Mode.CSR) ∧
    (∀ c ∈ s.active, c.serial > 1 →
      c.effMode = Mode.CSR ∧ runFetches c.effMode = false) ∧
    (∀ c ∈ s.active, runFetches c.effMode = true → c.serial = 1) ∧
    s.active.countP (fun c => runFetches c.effMode) ≤ 1 := by
  obtain ⟨ls, hrun⟩ := h
  obtain ⟨h1, h2, h3, h4, h5⟩ := inv_runSteps ls (initR reg₀) s (inv_init reg₀) hrun
  have heff : ∀ c ∈ s.active, c.serial > 1 → c.effMode = Mode.CSR := by
    intro c hc hserial
    rw [h1 c hc]
    unfold downgrade
    by_cases hm : c.userMode = Mode.CSR
    · simp [hm]
    · simp [hserial, hm]
  have hfetch1 : ∀ c ∈ s.active, runFetches c.effMode = true → c.serial = 1 := by
    intro c hc hf
    by_contra hne
    have hserial : c.serial > 1 := by
      have := h2 c hc
      omega
    rw [heff c hc hserial] at hf
    cases hf
  refine ⟨?_, ?_, hfetch1, ?_⟩
  · intro serial m hs hm
    simp [downgrade, hs, hm]
  · intro c hc hserial
    refine ⟨heff c hc hserial, ?_⟩
    rw [heff c hc hserial]
    rfl
  · calc s.active.countP (fun c => runFetches c.effMode)
        ≤ s.active.countP (fun c => c.serial == 1) := by
          refine List.countP_mono_left ?_
          intro c hc hf
          simpa using hfetch1 c hc hf
      _ ≤ 1 := h3

/-- Witness for `react_overlap_collapse`: the state reached by two
overlapping SERVER starts — the second call is downgraded to CSR and only
the first performs a fetch. -/
theorem react_overlap_collapse_witness :
    ReachR [] ⟨some 2, [⟨.SERVER, .CSR, 2⟩, ⟨.SERVER, .SERVER, 1⟩], []⟩ ∧
    (RState.mk (some 2) [⟨.SERVER, .CSR, 2⟩, ⟨.SERVER, .SERVER, 1⟩] []).active.countP
      (fun c => runFetches c.effMode) ≤ 1 ∧
    downgrade 2 Mode.SERVER = Mode.CSR := by
  have hr : ReachR [] ⟨some 2, [⟨.SERVER, .CSR, 2⟩, ⟨.SERVER, .SERVER, 1⟩], []⟩ :=
    ⟨[.start .SERVER, .start .SERVER], rfl⟩
  have h := react_overlap_collapse []
    ⟨some 2, [⟨.SERVER, .CSR, 2⟩, ⟨.SERVER, .SERVER, 1⟩], []⟩ hr
  exact ⟨hr, h.2.2.2, h.1 2 Mode.SERVER (by decide) (by decide)⟩

/-- Claim C6: a `render` call performs a full render if and only if
`isNew` is true or some key reported changed by the diff is outside the
componentId's rune keys; otherwise it performs a patch render rewriting
exactly the slots bound to the changed non-placeholder keys.  In the
scenario, creating `counter` with `{count: 0}` under a template that
rune-binds `count` renders fully, and after updating to `{count: 1}` the
second render is a patch touching only the `count` slot. -/
theorem render_strategy_decision :
    (∀ fuel reg stored cid isNew res,
      render1 fuel reg stored cid isNew = some res →
      (res.fullRender = true ↔ (isNew = true ∨
        ∃ k ∈ calculateChangedVars stored res.newStoredVars,
          k ∉ runeKeysOf reg cid)) ∧
      (res.fullRender = false →
        res.patchedRunes =
          (calculateChangedVars stored res.newStoredVars).filter
            (fun k => !holdsComponent reg cid k))) ∧
    (createGo tplsCounter 2 [] (tplsCounter "counter")
        [("count", .prim (.num 0))] "" (some "v1") = some (regC6a, "counter") ∧
      runeKeysOf regC6a "counter" = ["count"] ∧
      (∃ res1, render1 2 regC6a [] "counter" true = some res1 ∧
        res1.fullRender = true ∧
        res1.newStoredVars = [("count", .prim (.num 0))]) ∧
      (∃ old, updateGo tplsCounter 2 regC6a "counter"
        [("count", .prim (.num 1))] (some "v1") = some (regC6b, old)) ∧
      (∃ res2, render1 2 regC6b [("count", .prim (.num 0))] "counter" false =
          some res2 ∧
        res2.fullRender = false ∧ res2.patchedRunes = ["count"])) := by
  constructor
  · intro fuel reg stored cid isNew res h
    rw [render1] at h
    cases hl : reg.lookup cid with
    | none => rw [hl] at h; cases h
    | some r =>
      rw [hl] at h
      simp only at h
      cases he : encodeVars fuel reg (extractVars reg cid) none with
      | none => rw [he] at h; cases h
      | some newEnc =>
        rw [he] at h
        simp only [Option.some.injEq] at h
        subst h
        constructor
        · simp only [runeKeysOf, hl]
          cases isNew with
          | true => simp
          | false =>
            simp only [Bool.false_or, Bool.not_eq_true']
            rw [Bool.eq_false_iff, ne_eq, List.all_eq_true]
            constructor
            · intro hna
              rcases not_forall.mp hna with ⟨k, hk⟩
              rcases Classical.not_imp.mp hk with ⟨hkmem, hknot⟩
              exact Or.inr ⟨k, hkmem, fun hmem => hknot (List.elem_iff.mpr hmem)⟩
            · rintro (hfalse | ⟨k, hkmem, hknot⟩)
              · cases hfalse
              · intro hall
                exact hknot (List.elem_iff.mp (hall k hkmem))
        · intro hf
          simp only at hf
          simp only [hf, Bool.false_eq_true, if_false]
          rfl
  · refine ⟨rfl, rfl, ⟨_, rfl, rfl, rfl⟩, ⟨_, rfl⟩, ⟨_, rfl, rfl, rfl⟩⟩

/-- Witness for `render_strategy_decision`: the patch render of the
updated `counter` instance, with the decision characterization
instantiated there. -/
theorem render_strategy_decision_witness :
    ∃ res, render1 2 regC6b [("count", EncVal.prim (JVal.num 0))] "counter" false =
        some res ∧
      res.fullRender = false ∧ res.patchedRunes = ["count"] ∧
      (res.fullRender = true ↔ (false = true ∨
        ∃ k ∈ calculateChangedVars [("count", EncVal.prim (JVal.num 0))]
          res.newStoredVars, k ∉ runeKeysOf regC6b "counter")) := by
  refine ⟨_, rfl, rfl, rfl, ?_⟩
  exact (render_strategy_decision.1 2 regC6b
    [("count", EncVal.prim (JVal.num 0))] "counter" false _ rfl).1

/-- Counterexample to claim C4 as stated: decoding the envelope `xEnvC4`
(component `B` whose variable `c` is a component reference to `C` with
mode `SERVER`) and re-encoding the resulting instance reproduces the tag,
component names, ids and all variable values — but NOT the nested mode:
the recursive `encodeVars` call (instance.js line 298) passes no mode, so
the nested envelope's mode field is `undefined` instead of `SERVER`. -/
theorem roundtrip_nested_mode_dropped :
    convert tplsId 5 [] xEnvC4 = some (regC4, .comp "B") ∧
    encodeVars 5 regC4 [("k", .comp "B")] (some "SERVER") =
      some [("k", .compRef (some "SERVER") "B" ""
        [("c", .compRef none "C" "" [("n", .prim (.num 5))] none),
         ("s", .prim (.num 7))] none)] ∧
    varModeOf xEnvC4 "c" = some (some "SERVER") ∧
    varModeOf (.compRef (some "SERVER") "B" ""
      [("c", .compRef none "C" "" [("n", .prim (.num 5))] none),
       ("s", .prim (.num 7))] none) "c" = some none ∧
    some "SERVER" ≠ (none : Option String) := by
  refine ⟨rfl, rfl, rfl, rfl, ?_⟩
  intro h
  cases h

theorem convert_prim (tpls : String → Template) (f : Nat) (reg : Registry)
    (j : JVal) : convert tpls f reg (.prim j) = some (reg, .prim j) := by
  cases f <;> rfl

theorem encodeVal_prim (f : Nat) (reg : Registry) (mode : Option String)
    (j : JVal) : encodeVal f reg mode (.prim j) = some (.prim j) := by
  cases f <;> rfl

theorem extractVars_eq (reg : Registry) (cid : String) (r : InstRec)
    (h : reg.lookup cid = some r) :
    extractVars reg cid =
      r.serverVarKeys.map (fun k => (k, (r.fields.lookup k).getD (.prim .null))) := by
  rw [extractVars, h]

theorem convList_allPrim (tpls : String → Template) (f : Nat) :
    ∀ (vs : List (String × EncVal)) (reg : Registry), allPrim vs = true →
      convList (fun rg v => convert tpls f rg v) reg vs =
        some (reg, vs.map (fun p => (p.1, decEntryVal p.2))) := by
  intro vs
  induction vs with
  | nil => intro reg _; rfl
  | cons p rest ih =>
    intro reg h
    rcases p with ⟨k, v⟩
    rw [allPrim, List.all_cons, Bool.and_eq_true] at h
    cases v with
    | prim j =>
      simp only [convList, convert_prim, ih reg h.2, List.map_cons, decEntryVal]
    | compRef m c i vs' ver => cases h.1

theorem decEntryVal_prim (j : JVal) : decEntryVal (.prim j) = .prim j := rfl

theorem decEntryVal_comp (m : Option String) (c i : String)
    (vs : List (String × EncVal)) (ver : Option String) :
    decEntryVal (.compRef m c i vs ver) = .comp (getComponentId c i) := rfl

theorem stripTop_prim (j : JVal) : stripTop (.prim j) = .prim j := rfl

theorem stripTop_comp (m : Option String) (c i : String)
    (vs : List (String × EncVal)) (ver : Option String) :
    stripTop (.compRef m c i vs ver) = .compRef none c i vs none := rfl

theorem convert_depth1 (tpls : String → Template)
    (hname : ∀ n, (tpls n).component = n) (f : Nat) (reg : Registry)
    (m' : Option String) (n' i' : String) (vs' : List (String × EncVal))
    (v' : Option String) (hprim : allPrim vs' = true)
    (hfresh : reg.lookup (getComponentId n' i') = none) :
    convert tpls (f + 1) reg (.compRef m' n' i' vs' v') =
      some ((getComponentId n' i', nrec tpls n' i' vs' v') :: reg,
        .comp (getComponentId n' i')) := by
  simp only [convert, hfresh]
  rw [createWith]
  simp only [hname n']
  rw [convList_allPrim tpls f vs' reg hprim]
  simp only [rinsert, filter_ne_of_lookup_none reg (getComponentId n' i') hfresh]
  rfl

theorem extract_aligned (F : EncVal → VarVal) (d : VarVal) :
    ∀ vars : List (String × EncVal), (vars.map Prod.fst).Nodup →
      (vars.map Prod.fst).map
        (fun k => (k, ((vars.map (fun p => (p.1, F p.2))).lookup k).getD d)) =
        vars.map (fun p => (p.1, F p.2)) := by
  intro vars
  induction vars with
  | nil => intro _; rfl
  | cons p rest ih =>
    intro h
    rcases p with ⟨k, v⟩
    simp only [List.map_cons] at h ⊢
    rw [List.nodup_cons] at h
    congr 1
    · rw [lookup_cons_self]
      rfl
    · have hstep : ∀ k' ∈ rest.map Prod.fst,
          (k', ((((k, F v) :: rest.map (fun p => (p.1, F p.2))).lookup k').getD d)) =
          (k', (((rest.map (fun p => (p.1, F p.2))).lookup k').getD d)) := by
        intro k' hk'
        rw [lookup_cons_ne k' k (F v) _ (fun he => h.1 (he ▸ hk'))]
      rw [List.map_congr_left hstep]
      exact ih h.2

theorem encList_prim_of_decoded (g : Nat) (reg : Registry) :
    ∀ vs : List (String × EncVal), allPrim vs = true →
      encList (fun v => encodeVal g reg none v)
        (vs.map (fun p => (p.1, decEntryVal p.2))) = some vs := by
  intro vs
  induction vs with
  | nil => intro _; rfl
  | cons p rest ih =>
    intro h
    rcases p with ⟨k, v⟩
    rw [allPrim, List.all_cons, Bool.and_eq_true] at h
    cases v with
    | prim j =>
      simp only [List.map_cons, decEntryVal_prim, encList, encodeVal_prim, ih h.2]
    | compRef m c i vs' ver => cases h.1

theorem encode_mixed (tpls : String → Template) (g : Nat) (reg₁ : Registry) :
    ∀ vars : List (String × EncVal),
      (∀ p ∈ vars, OneLevel p.2) →
      (∀ p ∈ vars, ∀ m' n' i' vs' v', p.2 = .compRef m' n' i' vs' v' →
        reg₁.lookup (getComponentId n' i') = some (nrec tpls n' i' vs' v')) →
      encList (fun v => encodeVal (g + 1) reg₁ none v)
        (vars.map (fun p => (p.1, decEntryVal p.2))) =
        some (vars.map (fun p => (p.1, stripTop p.2))) := by
  intro vars
  induction vars with
  | nil => intro _ _; rfl
  | cons p rest ih =>
    intro hShape hLook
    rcases p with ⟨k, v⟩
    have ihr := ih (fun p hp => hShape p (List.mem_cons_of_mem _ hp))
      (fun p hp => hLook p (List.mem_cons_of_mem _ hp))
    cases v with
    | prim j =>
      simp only [List.map_cons, decEntryVal_prim, encList, encodeVal_prim, ihr,
        stripTop_prim]
    | compRef m' n' i' vs' v' =>
      have hOne : OneLevel (.compRef m' n' i' vs' v') :=
        hShape (k, .compRef m' n' i' vs' v') (List.mem_cons_self _ _)
      obtain ⟨hprim, hnodup⟩ := hOne
      have hlook := hLook (k, .compRef m' n' i' vs' v') (List.mem_cons_self _ _)
        m' n' i' vs' v' rfl
      have henc : encodeVal (g + 1) reg₁ none (.comp (getComponentId n' i')) =
          some (.compRef none n' i' vs' none) := by
        rw [encodeVal]
        rw [hlook]
        rw [extractVars_eq reg₁ (getComponentId n' i') _ hlook]
        simp only [nrec]
        rw [extract_aligned (fun e => decEntryVal e) (.prim .null) vs' hnodup]
        rw [encList_prim_of_decoded g reg₁ vs' hprim]
      simp only [List.map_cons, decEntryVal_comp, encList, henc, ihr, stripTop_comp]
theorem convList_mixed (tpls : String → Template)
    (hname : ∀ n, (tpls n).component = n) (f : Nat) :
    ∀ (vars : List (String × EncVal)) (reg : Registry),
      (∀ p ∈ vars, OneLevel p.2) →
      (∀ p ∈ vars, ∀ c, ncidOf p.2 = some c → reg.lookup c = none) →
      (vars.filterMap (fun p => ncidOf p.2)).Nodup →
      ∃ regOut,
        convList (fun rg v => convert tpls (f + 1) rg v) reg vars =
          some (regOut, vars.map (fun p => (p.1, decEntryVal p.2))) ∧
        (∀ q, (∀ p ∈ vars, ncidOf p.2 ≠ some q) →
          regOut.lookup q = reg.lookup q) ∧
        (∀ p ∈ vars, ∀ m' n' i' vs' v', p.2 = .compRef m' n' i' vs' v' →
          regOut.lookup (getComponentId n' i') = some (nrec tpls n' i' vs' v')) := by
  intro vars
  induction vars with
  | nil =>
    intro reg _ _ _
    exact ⟨reg, rfl, fun q _ => rfl, fun p hp => by cases hp⟩
  | cons p rest ih =>
    intro reg hShape hFresh hDist
    rcases p with ⟨k, v⟩
    cases v with
    | prim j =>
      have hDist' : (rest.filterMap (fun p => ncidOf p.2)).Nodup := by
        simpa [List.filterMap_cons, ncidOf] using hDist
      obtain ⟨regOut, hconv, hpres, hmemc⟩ := ih reg
        (fun p hp => hShape p (List.mem_cons_of_mem _ hp))
        (fun p hp => hFresh p (List.mem_cons_of_mem _ hp)) hDist'
      refine ⟨regOut, ?_, ?_, ?_⟩
      · simp only [convList, convert_prim, hconv, List.map_cons, decEntryVal_prim]
      · intro q hq
        exact hpres q (fun p hp => hq p (List.mem_cons_of_mem _ hp))
      · intro p hp m' n' i' vs' v' hpe
        rcases List.mem_cons.mp hp with heq | hmem
        · rw [heq] at hpe
          cases hpe
        · exact hmemc p hmem m' n' i' vs' v' hpe
    | compRef mh nh ih' vsh vh =>
      have hOne : OneLevel (.compRef mh nh ih' vsh vh) :=
        hShape (k, .compRef mh nh ih' vsh vh) (List.mem_cons_self _ _)
      obtain ⟨hprim, _⟩ := hOne
      have hfr : reg.lookup (getComponentId nh ih') = none :=
        hFresh (k, .compRef mh nh ih' vsh vh) (List.mem_cons_self _ _)
          (getComponentId nh ih') rfl
      have hDcons :
          (((k, EncVal.compRef mh nh ih' vsh vh) :: rest).filterMap
            (fun p => ncidOf p.2)) =
          getComponentId nh ih' :: rest.filterMap (fun p => ncidOf p.2) := by
        simp [List.filterMap_cons, ncidOf]
      rw [hDcons, List.nodup_cons] at hDist
      obtain ⟨hnotin, hDist'⟩ := hDist
      have hnocid : ∀ p ∈ rest, ncidOf p.2 ≠ some (getComponentId nh ih') := by
        intro p hp hcontra
        exact hnotin (List.mem_filterMap.mpr ⟨p, hp, hcontra⟩)
      obtain ⟨regOut, hconv, hpres, hmemc⟩ := ih
        ((getComponentId nh ih', nrec tpls nh ih' vsh vh) :: reg)
        (fun p hp => hShape p (List.mem_cons_of_mem _ hp))
        (fun p hp c hc => by
          rw [lookup_cons_ne c (getComponentId nh ih') _ _
            (fun he => hnocid p hp (he ▸ hc))]
          exact hFresh p (List.mem_cons_of_mem _ hp) c hc)
        hDist'
      refine ⟨regOut, ?_, ?_, ?_⟩
      · simp only [convList,
          convert_depth1 tpls hname f reg mh nh ih' vsh vh hprim hfr, hconv,
          List.map_cons, decEntryVal_comp]
      · intro q hq
        have hqne : getComponentId nh ih' ≠ q := by
          intro he
          exact hq (k, .compRef mh nh ih' vsh vh) (List.mem_cons_self _ _)
            (by rw [ncidOf, he])
        rw [hpres q (fun p hp => hq p (List.mem_cons_of_mem _ hp))]
        exact lookup_cons_ne q (getComponentId nh ih') _ _ (fun he => hqne he.symm)
      · intro p hp m' n' i' vs' v' hpe
        rcases List.mem_cons.mp hp with heq | hmem
        · have hv : EncVal.compRef mh nh ih' vsh vh = .compRef m' n' i' vs' v' := by
            have h2 := congrArg Prod.snd heq
            simp only at h2
            rw [← h2]
            exact hpe
          injection hv with e1 e2 e3 e4 e5
          subst e1; subst e2; subst e3; subst e4; subst e5
          rw [hpres (getComponentId nh ih') hnocid]
          exact lookup_cons_self _ _ _
        · exact hmemc p hmem m' n' i' vs' v' hpe
/-- Claim C4 (amended): for a component envelope of nesting depth at most
one — every variable a plain value or a component reference with plain,
distinctly-named variables — whose derived componentIds are fresh and
pairwise distinct, decoding the envelope into instances and re-encoding
those instances' server-owned variables reproduces an envelope with the
same tag, component name, id, and recursively equal variable values, and
with the top-level mode equal to the mode passed to `encodeVars`; the
`mode` (and `version`) fields of NESTED component references are not
preserved — they re-encode as `undefined`, because the recursive
`encodeVars` call passes no mode. -/
theorem roundtrip_one_level (tpls : String → Template)
    (hname : ∀ n, (tpls n).component = n) (fu g : Nat) (reg₀ : Registry)
    (m ver m' : Option String) (name id k₀ : String)
    (vars : List (String × EncVal))
    (hOuter : reg₀.lookup (getComponentId name id) = none)
    (hKeys : (vars.map Prod.fst).Nodup)
    (hShape : ∀ p ∈ vars, OneLevel p.2)
    (hFresh : ∀ p ∈ vars, ∀ c, ncidOf p.2 = some c →
      reg₀.lookup c = none ∧ c ≠ getComponentId name id)
    (hDist : (vars.filterMap (fun p => ncidOf p.2)).Nodup) :
    ∃ reg₁,
      convert tpls (fu + 1 + 1) reg₀ (.compRef m name id vars ver) =
        some (reg₁, .comp (getComponentId name id)) ∧
      encodeVars (g + 1 + 1 + 1) reg₁ [(k₀, .comp (getComponentId name id))] m' =
        some [(k₀, .compRef m' name id
          (vars.map (fun p => (p.1, stripTop p.2))) none)] := by
  obtain ⟨regMid, hconv, hpres, hmemc⟩ := convList_mixed tpls hname fu vars reg₀
    hShape (fun p hp c hc => (hFresh p hp c hc).1) hDist
  have houtQ : ∀ p ∈ vars, ncidOf p.2 ≠ some (getComponentId name id) := by
    intro p hp hq
    exact (hFresh p hp _ hq).2 rfl
  have houterMid : regMid.lookup (getComponentId name id) = none := by
    rw [hpres _ houtQ]
    exact hOuter
  have hdec : convert tpls (fu + 1 + 1) reg₀ (.compRef m name id vars ver) =
      some ((getComponentId name id,
        (⟨name, id, vars.map Prod.fst,
          (vars.map Prod.fst).filter (fun k => runeMatch (tpls name).htmlCode k),
          ver, vars.map (fun p => (p.1, decEntryVal p.2))⟩ : InstRec)) :: regMid,
        .comp (getComponentId name id)) := by
    simp only [convert, hOuter]
    simp only [createWith, hname name]
    rw [hconv]
    simp only [rinsert, filter_ne_of_lookup_none regMid _ houterMid]
  refine ⟨_, hdec, ?_⟩
  have hlookO : (((getComponentId name id,
      (⟨name, id, vars.map Prod.fst,
        (vars.map Prod.fst).filter (fun k => runeMatch (tpls name).htmlCode k),
        ver, vars.map (fun p => (p.1, decEntryVal p.2))⟩ : InstRec)) :: regMid).lookup
      (getComponentId name id)) =
      some (⟨name, id, vars.map Prod.fst,
        (vars.map Prod.fst).filter (fun k => runeMatch (tpls name).htmlCode k),
        ver, vars.map (fun p => (p.1, decEntryVal p.2))⟩ : InstRec) :=
    lookup_cons_self _ _ _
  have hnested : ∀ p ∈ vars, ∀ m₂ n₂ i₂ vs₂ v₂, p.2 = .compRef m₂ n₂ i₂ vs₂ v₂ →
      (((getComponentId name id,
        (⟨name, id, vars.map Prod.fst,
          (vars.map Prod.fst).filter (fun k => runeMatch (tpls name).htmlCode k),
          ver, vars.map (fun p => (p.1, decEntryVal p.2))⟩ : InstRec)) :: regMid).lookup
        (getComponentId n₂ i₂)) = some (nrec tpls n₂ i₂ vs₂ v₂) := by
    intro p hp m₂ n₂ i₂ vs₂ v₂ hpe
    have hne : getComponentId n₂ i₂ ≠ getComponentId name id :=
      (hFresh p hp _ (by rw [hpe]; rfl)).2
    rw [lookup_cons_ne _ _ _ _ hne]
    exact hmemc p hp m₂ n₂ i₂ vs₂ v₂ hpe
  have hev : encodeVal (g + 1 + 1 + 1)
      ((getComponentId name id,
        (⟨name, id, vars.map Prod.fst,
          (vars.map Prod.fst).filter (fun k => runeMatch (tpls name).htmlCode k),
          ver, vars.map (fun p => (p.1, decEntryVal p.2))⟩ : InstRec)) :: regMid)
      m' (.comp (getComponentId name id)) =
      some (.compRef m' name id
        (vars.map (fun p => (p.1, stripTop p.2))) none) := by
    rw [encodeVal]
    rw [hlookO]
    rw [extractVars_eq _ _ _ hlookO]
    simp only []
    rw [extract_aligned decEntryVal (.prim .null) vars hKeys]
    rw [encode_mixed tpls (g + 1) _ vars hShape hnested]
  simp only [encodeVars, encList, hev]
/-- Witness for `roundtrip_one_level`: the concrete `B`/`C` envelope of
the counterexample, decoded into an empty registry and re-encoded with
mode `SERVER`. -/
theorem roundtrip_one_level_witness :
    ∃ reg₁,
      convert tplsId (0 + 1 + 1) [] (.compRef (some "SERVER") "B" ""
        [("c", .compRef (some "SERVER") "C" "" [("n", .prim (.num 5))] none),
         ("s", .prim (.num 7))] none) =
        some (reg₁, .comp (getComponentId "B" "")) ∧
      encodeVars (0 + 1 + 1 + 1) reg₁
        [("k", .comp (getComponentId "B" ""))] (some "SERVER") =
        some [("k", .compRef (some "SERVER") "B" ""
          ([("c", EncVal.compRef (some "SERVER") "C" ""
              [("n", EncVal.prim (JVal.num 5))] none),
            ("s", EncVal.prim (JVal.num 7))].map
            (fun p => (p.1, stripTop p.2))) none)] := by
  refine roundtrip_one_level tplsId (fun n => rfl) 0 0 [] (some "SERVER") none
    (some "SERVER") "B" "" "k"
    [("c", .compRef (some "SERVER") "C" "" [("n", .prim (.num 5))] none),
     ("s", .prim (.num 7))] rfl (by decide) ?_ ?_ (by decide)
  · intro p hp
    simp only [List.mem_cons, List.mem_singleton] at hp
    rcases hp with rfl | rfl | h
    · exact ⟨rfl, by decide⟩
    · exact trivial
    · cases h
  · intro p hp c hc
    simp only [List.mem_cons, List.mem_singleton] at hp
    rcases hp with rfl | rfl | h
    · simp only [ncidOf] at hc
      injection hc with hc
      subst hc
      exact ⟨rfl, by decide⟩
    · exact Option.noConfusion hc
    · cases h

end FuseWire
